import Mathlib

/-!
Shallow embedding of the rsnake game core (src/src/lib.rs).

The Rust source is a wasm snake game.  Rendering calls
(canvas_set_fill_style, canvas_fill_rect, canvas_fill) only paint and are
not modelled as state.  The four host notification callbacks
(snake_score_changed, snake_step_period_updated, snake_game_over) are
modelled as an event list emitted by each operation.  The host random
source js_random, used only by teleport_apple, is modelled by passing the
two drawn integers as explicit parameters.  Rust i32 values are modelled
as Int (all reachable values of score, next_reward, step_period and the
coordinates stay far inside the i32 range within a session, so two's
complement wrap never occurs on them) and usize indices as Nat.  The
fixed array segments of capacity GRID_WIDTH * GRID_HEIGHT = 1600 is
modelled as a total function Nat -> Position written with
Function.update; the reachability relation carries the length < capacity
side condition under which every array write of the source is in bounds.
The todo!() branch of on_key_down (a Rust panic) is modelled by Option:
none is the abort.
-/

namespace RSnake

/-- const GRID_WIDTH: usize = 40 -/
def GRID_WIDTH : Nat := 40

/-- const GRID_HEIGHT: usize = 40 -/
def GRID_HEIGHT : Nat := 40

/-- The snake segment buffer capacity, GRID_WIDTH * GRID_HEIGHT = 1600. -/
def capacity : Nat := GRID_WIDTH * GRID_HEIGHT

/-- const KEY_CODE_ARROW_UP: u32 = 0 -/
def KEY_CODE_ARROW_UP : Nat := 0

/-- const KEY_CODE_ARROW_DOWN: u32 = 1 -/
def KEY_CODE_ARROW_DOWN : Nat := 1

/-- const KEY_CODE_ARROW_LEFT: u32 = 2 -/
def KEY_CODE_ARROW_LEFT : Nat := 2

/-- const KEY_CODE_ARROW_RIGHT: u32 = 3 -/
def KEY_CODE_ARROW_RIGHT : Nat := 3

/-- enum Direction { Up, Down, Left, Right } -/
inductive Direction where
  | up
  | down
  | left
  | right
deriving DecidableEq, Repr

/-- fn direction_is_opposite(dir: Direction, other: Direction) -> bool -/
def direction_is_opposite (dir other : Direction) : Bool :=
  dir == Direction.up && other == Direction.down
    || dir == Direction.down && other == Direction.up
    || dir == Direction.left && other == Direction.right
    || dir == Direction.right && other == Direction.left

/-- struct Position { x: i32, y: i32 } -/
structure Position where
  x : Int
  y : Int
deriving DecidableEq, Repr

/-- fn position_moved(pos: Position, direction: Direction) -> Position -/
def position_moved (pos : Position) (direction : Direction) : Position :=
  match direction with
  | Direction.up => { pos with y := pos.y - 1 }
  | Direction.down => { pos with y := pos.y + 1 }
  | Direction.left => { pos with x := pos.x - 1 }
  | Direction.right => { pos with x := pos.x + 1 }

/-- struct Snake, with the fixed array segments: [Position; GRID_WIDTH * GRID_HEIGHT]
modelled as a total function out of Nat. -/
structure Snake where
  segments : Nat → Position
  length : Nat
  head_index : Nat
  direction : Direction

/-- fn head_position(&Snake) -> Position: segments[head_index]. -/
def Snake.head_position (s : Snake) : Position :=
  s.segments s.head_index

/-- fn next_head_position(&Snake) -> Position:
position_moved(segments[head_index], direction). -/
def Snake.next_head_position (s : Snake) : Position :=
  position_moved (s.segments s.head_index) s.direction

/-- fn eats_himself(&Snake) -> bool: scan i in 0..length, skipping
i == head_index, for a segment equal to the head position. -/
def Snake.eats_himself (s : Snake) : Bool :=
  (List.range s.length).any fun i =>
    !(i == s.head_index) && s.head_position == s.segments i

/-- fn is_out_of_bounds(&Snake, width, height) -> bool. -/
def Snake.is_out_of_bounds (s : Snake) (width height : Nat) : Bool :=
  let head_position := s.head_position
  decide (head_position.x < 0)
    || decide (head_position.x ≥ (width : Int))
    || decide (head_position.y < 0)
    || decide (head_position.y ≥ (height : Int))

/-- fn move_ahead(&mut Snake): advance head_index by one, wrapping to 0 at
length - 1, and overwrite that slot with the next head position. -/
def Snake.move_ahead (s : Snake) : Snake :=
  let next_head_position := s.next_head_position
  let new_head_index := if s.head_index == s.length - 1 then 0 else s.head_index + 1
  { s with
    head_index := new_head_index
    segments := Function.update s.segments new_head_index next_head_position }

/-- The loop `for i in (lo..lo+n).rev() { segments[i + 1] = segments[i]; }`
of Snake::grow: writes run downward from index lo + n - 1 to lo, each write
putting the (original) value at i into slot i + 1. -/
def grow_shift (f : Nat → Position) (lo : Nat) : Nat → (Nat → Position)
  | 0 => f
  | Nat.succ k => grow_shift (Function.update f (lo + k + 1) (f (lo + k))) lo k

/-- fn grow(&mut Snake): if head_index == length write the next head at
segments[length], otherwise shift segments[head_index..length] one slot to
the right and write the next head at head_index + 1; then length += 1.
head_index is left unchanged by the source. -/
def Snake.grow (s : Snake) : Snake :=
  let next_head_position := s.next_head_position
  let segs :=
    if s.head_index == s.length then
      Function.update s.segments s.length next_head_position
    else
      Function.update (grow_shift s.segments s.head_index (s.length - s.head_index))
        (s.head_index + 1) next_head_position
  { s with segments := segs, length := s.length + 1 }

/-- The list of positions occupied by the snake: segments[0..length], the
slots painted by paint_snake and scanned by eats_himself. -/
def Snake.occupied (s : Snake) : List Position :=
  (List.range s.length).map s.segments

/-- The outbound notification calls of the source, as events:
snake_score_changed, snake_step_period_updated, snake_game_over. -/
inductive Event where
  | snake_score_changed (s : Int)
  | snake_step_period_updated (period : Int)
  | snake_game_over
deriving DecidableEq, Repr

/-- pub struct GameState. -/
structure GameState where
  snake : Snake
  apple : Position
  step_period : Int
  score : Int
  next_reward : Int

/-- fn change_snake_direction(&mut self, d: Direction): apply d unless it is
the exact opposite of the current heading. -/
def GameState.change_snake_direction (g : GameState) (d : Direction) : GameState :=
  if direction_is_opposite g.snake.direction d then g
  else { g with snake := { g.snake with direction := d } }

/-- pub fn on_key_down(&mut self, code: u32): dispatch on the four key-code
constants; any other code reaches todo!(), a Rust panic, modelled as none. -/
def GameState.on_key_down (g : GameState) (code : Nat) : Option GameState :=
  if code = KEY_CODE_ARROW_UP then some (g.change_snake_direction Direction.up)
  else if code = KEY_CODE_ARROW_DOWN then some (g.change_snake_direction Direction.down)
  else if code = KEY_CODE_ARROW_LEFT then some (g.change_snake_direction Direction.left)
  else if code = KEY_CODE_ARROW_RIGHT then some (g.change_snake_direction Direction.right)
  else none

/-- fn speedup_game(&mut self): if step_period > 50, decrease it by 25 and
fire snake_step_period_updated with the new value. -/
def GameState.speedup_game (g : GameState) : GameState × List Event :=
  if g.step_period > 50 then
    ({ g with step_period := g.step_period - 25 },
      [Event.snake_step_period_updated (g.step_period - 25)])
  else (g, [])

/-- fn snake_will_eat_apple(&self) -> bool. -/
def GameState.snake_will_eat_apple (g : GameState) : Bool :=
  g.snake.next_head_position == g.apple

/-- fn update_score(&mut self): score += next_reward; next_reward += 10. -/
def GameState.update_score (g : GameState) : GameState :=
  { g with score := g.score + g.next_reward, next_reward := g.next_reward + 10 }

/-- fn teleport_apple(&mut self): apple gets the two values drawn from
js_random(GRID_WIDTH) and js_random(GRID_HEIGHT), passed here explicitly. -/
def GameState.teleport_apple (g : GameState) (rx ry : Int) : GameState :=
  { g with apple := { x := rx, y := ry } }

/-- The game-over check at the end of GameState::step: fire snake_game_over
when the snake is out of bounds or eats itself. -/
def GameState.game_over_events (g : GameState) : List Event :=
  if g.snake.is_out_of_bounds GRID_WIDTH GRID_HEIGHT || g.snake.eats_himself then
    [Event.snake_game_over]
  else []

/-- pub fn step(&mut self, _timestamp: i32): one simulation tick.  rx, ry are
the two js_random draws consumed by teleport_apple on an eating tick.  The
emitted events follow the call order of the source: the period update fired
inside speedup_game, then snake_score_changed(score), then the game-over
check. -/
def GameState.step (g : GameState) (rx ry : Int) : GameState × List Event :=
  if g.snake_will_eat_apple then
    let g1 := { g with snake := g.snake.grow }
    let g2 := g1.teleport_apple rx ry
    let p := g2.speedup_game
    let g3 := p.1.update_score
    (g3, p.2 ++ [Event.snake_score_changed g3.score] ++ g3.game_over_events)
  else
    let g1 := { g with snake := g.snake.move_ahead }
    (g1, g1.game_over_events)

/-- pub fn new() -> GameState: snake of length 4 heading Right, all segments
(0,0) then segments[1..3].x set to 1, 2, 3, head_index 3; apple teleported to
the two js_random draws ax, ay; step_period 300, score 0, next_reward 10.
(The constructor also fires snake_score_changed(0) and repaints.) -/
def GameState.new (ax ay : Int) : GameState :=
  { snake :=
      { segments :=
          Function.update (Function.update (Function.update
            (fun _ => { x := 0, y := 0 })
            1 { x := 1, y := 0 })
            2 { x := 2, y := 0 })
            3 { x := 3, y := 0 }
        length := 4
        head_index := 3
        direction := Direction.right }
    apple := { x := ax, y := ay }
    step_period := 300
    score := 0
    next_reward := 10 }

/-- The game states reachable from GameState::new by host-driven key events
and ticks.  A tick carries the two js_random draws.  The side condition on
ticks records that every eating tick happens with length < capacity: this is
exactly the regime in which every segments[] write of the Rust source is in
bounds (Rust would abort on the out-of-bounds write otherwise), matching the
stated grow() precondition. -/
inductive Reachable (ax ay : Int) : GameState → Prop
  | init : Reachable ax ay (GameState.new ax ay)
  | key (g g' : GameState) (code : Nat) :
      Reachable ax ay g → g.on_key_down code = some g' → Reachable ax ay g'
  | tick (g : GameState) (rx ry : Int) :
      Reachable ax ay g →
      (g.snake_will_eat_apple = true → g.snake.length < capacity) →
      Reachable ax ay (g.step rx ry).1

/-! ### Helper lemmas about the snake body engine -/

/-- Evaluation of the reversed shift loop of grow: index j reads the original
value at j - 1 when lo < j ≤ lo + n, and is untouched otherwise. -/
theorem grow_shift_eval (f : Nat → Position) (lo n j : Nat) :
    grow_shift f lo n j = if lo < j ∧ j ≤ lo + n then f (j - 1) else f j := by
  induction n generalizing f with
  | zero =>
      have h0 : ¬(lo < j ∧ j ≤ lo + 0) := by omega
      rw [if_neg h0]
      rfl
  | succ k ih =>
      simp only [grow_shift]
      rw [ih]
      simp only [Function.update_apply]
      split_ifs <;> first
        | rfl
        | (exfalso; omega)
        | (congr 1; omega)

theorem Snake.grow_length (s : Snake) : s.grow.length = s.length + 1 := rfl

theorem Snake.grow_head_index (s : Snake) : s.grow.head_index = s.head_index := rfl

theorem Snake.grow_direction (s : Snake) : s.grow.direction = s.direction := rfl

/-- The segment array after grow, in the head_index < length regime (the
else branch of the source): the next head position sits at head_index + 1,
the slots above it up to length hold their left neighbour's old value, and
everything at or below head_index is untouched. -/
theorem Snake.grow_segments_eval (s : Snake) (h : s.head_index < s.length) (j : Nat) :
    s.grow.segments j =
      if j = s.head_index + 1 then s.next_head_position
      else if s.head_index < j ∧ j ≤ s.length then s.segments (j - 1)
      else s.segments j := by
  have hne : ¬((s.head_index == s.length) = true) := by
    simp only [beq_iff_eq]
    omega
  show (if (s.head_index == s.length) = true
      then Function.update s.segments s.length s.next_head_position
      else Function.update (grow_shift s.segments s.head_index (s.length - s.head_index))
        (s.head_index + 1) s.next_head_position) j = _
  rw [if_neg hne, Function.update_apply, grow_shift_eval]
  have harith : s.head_index + (s.length - s.head_index) = s.length := by omega
  rw [harith]

theorem Snake.occupied_length (s : Snake) : s.occupied.length = s.length := by
  simp [Snake.occupied]

theorem Snake.occupied_getElem (s : Snake) (j : Nat) (hj : j < s.occupied.length) :
    s.occupied[j] = s.segments j := by
  simp [Snake.occupied]

theorem Snake.occupied_getElem? (s : Snake) (j : Nat) (hj : j < s.length) :
    s.occupied[j]? = some (s.segments j) := by
  simp [Snake.occupied, List.getElem?_map, List.getElem?_range hj]

/-- The occupied slots after grow (head_index < length): the old occupied
list with the next head position inserted right after slot head_index. -/
theorem Snake.occupied_grow (s : Snake) (h : s.head_index < s.length) :
    s.grow.occupied =
      s.occupied.take (s.head_index + 1)
        ++ s.next_head_position :: s.occupied.drop (s.head_index + 1) := by
  apply List.ext_getElem?
  intro i
  have hgl : s.grow.occupied.length = s.length + 1 := by
    rw [Snake.occupied_length, Snake.grow_length]
  have htklen : (s.occupied.take (s.head_index + 1)).length = s.head_index + 1 := by
    rw [List.length_take, Snake.occupied_length]
    omega
  by_cases hi : i < s.length + 1
  · rw [Snake.occupied_getElem? s.grow i (by rw [Snake.grow_length]; omega),
      Snake.grow_segments_eval s h i]
    by_cases hia : i ≤ s.head_index
    · rw [if_neg (by omega), if_neg (by omega)]
      rw [List.getElem?_append_left (by omega), List.getElem?_take, if_pos (by omega),
        Snake.occupied_getElem? s i (by omega)]
    · by_cases hib : i = s.head_index + 1
      · rw [if_pos hib, List.getElem?_append_right (by omega), htklen, hib, Nat.sub_self,
          List.getElem?_cons_zero]
      · rw [if_neg hib, if_pos (by omega), List.getElem?_append_right (by omega), htklen]
        have hsub : i - (s.head_index + 1) = (i - s.head_index - 2) + 1 := by omega
        rw [hsub, List.getElem?_cons_succ, List.getElem?_drop]
        have hidx : s.head_index + 1 + (i - s.head_index - 2) = i - 1 := by omega
        rw [hidx, Snake.occupied_getElem? s (i - 1) (by omega)]
  · rw [List.getElem?_eq_none (by omega), List.getElem?_eq_none]
    simp only [List.length_append, List.length_cons, List.length_drop, htklen,
      Snake.occupied_length]
    omega

/-- The occupied slots after grow are the old ones plus the next head
position, as a permutation. -/
theorem Snake.occupied_grow_perm (s : Snake) (h : s.head_index < s.length) :
    s.grow.occupied.Perm (s.next_head_position :: s.occupied) := by
  rw [Snake.occupied_grow s h]
  have hmid :
      (s.occupied.take (s.head_index + 1)
          ++ s.next_head_position :: s.occupied.drop (s.head_index + 1)).Perm
        (s.next_head_position
          :: (s.occupied.take (s.head_index + 1) ++ s.occupied.drop (s.head_index + 1))) :=
    List.perm_middle
  rwa [List.take_append_drop] at hmid

theorem Snake.move_ahead_length (s : Snake) : s.move_ahead.length = s.length := rfl

theorem Snake.move_ahead_direction (s : Snake) : s.move_ahead.direction = s.direction := rfl

/-- The slot index move_ahead advances to, written with mod: the source's
wrap-at-(length - 1) test equals (head_index + 1) % length when
head_index < length. -/
theorem move_target_eq (s : Snake) (h : s.head_index < s.length) :
    (if (s.head_index == s.length - 1) = true then 0 else s.head_index + 1)
      = (s.head_index + 1) % s.length := by
  by_cases h1 : s.head_index = s.length - 1
  · rw [if_pos (by simp [h1])]
    have h2 : s.head_index + 1 = s.length := by omega
    rw [h2, Nat.mod_self]
  · rw [if_neg (by simp [h1])]
    exact (Nat.mod_eq_of_lt (by omega)).symm

theorem Snake.move_ahead_head_index (s : Snake) (h : s.head_index < s.length) :
    s.move_ahead.head_index = (s.head_index + 1) % s.length := by
  show (if (s.head_index == s.length - 1) = true then 0 else s.head_index + 1) = _
  exact move_target_eq s h

theorem Snake.move_ahead_segments (s : Snake) (h : s.head_index < s.length) :
    s.move_ahead.segments
      = Function.update s.segments ((s.head_index + 1) % s.length) s.next_head_position := by
  show Function.update s.segments
      (if (s.head_index == s.length - 1) = true then 0 else s.head_index + 1)
      s.next_head_position = _
  rw [move_target_eq s h]

/-- Mapping an updated function over range n is setting one slot of the
mapped list, provided the updated index is below n. -/
theorem map_update_range (f : Nat → Position) (i : Nat) (a : Position) (n : Nat) :
    (List.range n).map (Function.update f i a) = ((List.range n).map f).set i a := by
  apply List.ext_getElem
  · simp
  · intro j h1 h2
    have hj : j < n := by simpa using h1
    rw [List.getElem_map, List.getElem_range, Function.update_apply,
      List.getElem_set, List.getElem_map, List.getElem_range]
    by_cases hji : j = i
    · rw [if_pos hji, if_pos hji.symm]
    · rw [if_neg hji, if_neg (fun hc => hji hc.symm)]

/-- The occupied slots after move_ahead: the slot at (head_index + 1) mod
length — the oldest tail segment — is overwritten with the next head
position. -/
theorem Snake.occupied_move_ahead (s : Snake) (h : s.head_index < s.length) :
    s.move_ahead.occupied
      = s.occupied.set ((s.head_index + 1) % s.length) s.next_head_position := by
  show (List.range s.move_ahead.length).map s.move_ahead.segments = _
  rw [Snake.move_ahead_length, Snake.move_ahead_segments s h]
  exact map_update_range _ _ _ _

/-- Membership in a list with one slot replaced, for lists without
duplicates. -/
theorem mem_set_iff_of_nodup {l : List Position} {i : Nat} (hi : i < l.length)
    (hn : l.Nodup) (a p : Position) :
    p ∈ l.set i a ↔ (p ∈ l ∧ p ≠ l[i]) ∨ p = a := by
  constructor
  · intro hp
    obtain ⟨j, hj, hpj⟩ := List.mem_iff_getElem.mp hp
    rw [List.length_set] at hj
    rw [List.getElem_set] at hpj
    by_cases hij : i = j
    · right
      rw [if_pos hij] at hpj
      exact hpj.symm
    · left
      rw [if_neg hij] at hpj
      refine ⟨hpj ▸ List.getElem_mem hj, fun hc => hij ?_⟩
      have hli : l[i] = l[j] := by rw [← hc, ← hpj]
      exact (hn.getElem_inj_iff.mp hli)
  · intro hp
    rcases hp with ⟨hmem, hne⟩ | rfl
    · obtain ⟨j, hj, hpj⟩ := List.mem_iff_getElem.mp hmem
      have hij : i ≠ j := by
        intro hc
        subst hc
        exact hne (hpj.symm)
      refine List.mem_iff_getElem.mpr ⟨j, by rw [List.length_set]; exact hj, ?_⟩
      rw [List.getElem_set, if_neg hij]
      exact hpj
    · exact List.mem_iff_getElem.mpr
        ⟨i, by rw [List.length_set]; exact hi, List.getElem_set_self _⟩

/-! ### Helper lemmas about the game session controller -/

/-- change_snake_direction touches nothing but the heading. -/
theorem GameState.change_snake_direction_fields (g : GameState) (d : Direction) :
    (g.change_snake_direction d).snake.segments = g.snake.segments
    ∧ (g.change_snake_direction d).snake.length = g.snake.length
    ∧ (g.change_snake_direction d).snake.head_index = g.snake.head_index
    ∧ (g.change_snake_direction d).apple = g.apple
    ∧ (g.change_snake_direction d).step_period = g.step_period
    ∧ (g.change_snake_direction d).score = g.score
    ∧ (g.change_snake_direction d).next_reward = g.next_reward := by
  unfold GameState.change_snake_direction
  split <;> exact ⟨rfl, rfl, rfl, rfl, rfl, rfl, rfl⟩

/-- Every state produced by on_key_down is a change_snake_direction of the
input state. -/
theorem GameState.on_key_down_some (g : GameState) (code : Nat) (g' : GameState)
    (h : g.on_key_down code = some g') :
    ∃ d, g' = g.change_snake_direction d := by
  unfold GameState.on_key_down at h
  split_ifs at h <;> first
    | exact ⟨_, (Option.some.inj h).symm⟩
    | simp at h

/-- The state after one tick, fully evaluated over the two branches of the
source. -/
theorem GameState.step_fst (g : GameState) (rx ry : Int) :
    (g.step rx ry).1 =
      if g.snake_will_eat_apple then
        { snake := g.snake.grow
          apple := { x := rx, y := ry }
          step_period := if g.step_period > 50 then g.step_period - 25 else g.step_period
          score := g.score + g.next_reward
          next_reward := g.next_reward + 10 }
      else { g with snake := g.snake.move_ahead } := by
  by_cases h : g.snake_will_eat_apple = true <;>
    by_cases h2 : g.step_period > 50 <;>
      simp [GameState.step, GameState.teleport_apple, GameState.speedup_game,
        GameState.update_score, h, h2]

/-- The events fired by one tick: the period update exactly when an eating
tick still has period above the floor, the score broadcast on every eating
tick, and the game-over check on the post-tick state. -/
theorem GameState.step_snd (g : GameState) (rx ry : Int) :
    (g.step rx ry).2 =
      (if g.snake_will_eat_apple = true ∧ g.step_period > 50
        then [Event.snake_step_period_updated (g.step_period - 25)] else [])
      ++ (if g.snake_will_eat_apple = true
        then [Event.snake_score_changed (g.score + g.next_reward)] else [])
      ++ (g.step rx ry).1.game_over_events := by
  by_cases h : g.snake_will_eat_apple = true <;>
    by_cases h2 : g.step_period > 50 <;>
      simp [GameState.step, GameState.teleport_apple, GameState.speedup_game,
        GameState.update_score, h, h2]

/-- game_over_events never contains a period-update event. -/
theorem GameState.period_event_not_game_over (g : GameState) (p : Int) :
    Event.snake_step_period_updated p ∉ g.game_over_events := by
  unfold GameState.game_over_events
  split <;> simp

/-- Reachable states keep the head index strictly inside the occupied range.
Initially 3 < 4; key events do not touch the body; grow leaves head_index
fixed while raising length; move_ahead wraps within 0..length. -/
theorem Reachable.snake_inv (ax ay : Int) (g : GameState) (h : Reachable ax ay g) :
    g.snake.head_index < g.snake.length := by
  induction h with
  | init =>
      show (3 : Nat) < 4
      omega
  | key g g' code hr hk ih =>
      obtain ⟨d, rfl⟩ := GameState.on_key_down_some _ _ _ hk
      have hp := GameState.change_snake_direction_fields g d
      rw [hp.2.2.1, hp.2.1]
      exact ih
  | tick g rx ry hr hcap ih =>
      rw [GameState.step_fst]
      by_cases h : g.snake_will_eat_apple = true
      · rw [if_pos h]
        show g.snake.grow.head_index < g.snake.grow.length
        rw [Snake.grow_length, Snake.grow_head_index]
        omega
      · rw [if_neg h]
        show g.snake.move_ahead.head_index < g.snake.move_ahead.length
        rw [Snake.move_ahead_length, Snake.move_ahead_head_index g.snake ih]
        exact Nat.mod_lt _ (by omega)

/-- Reachable states keep the step period at least 50 and divisible by 25:
it starts at 300 and only ever moves by -25 steps guarded by period > 50. -/
theorem Reachable.period_inv (ax ay : Int) (g : GameState) (h : Reachable ax ay g) :
    50 ≤ g.step_period ∧ g.step_period % 25 = 0 := by
  induction h with
  | init =>
      show (50 : Int) ≤ 300 ∧ (300 : Int) % 25 = 0
      omega
  | key g g' code hr hk ih =>
      obtain ⟨d, rfl⟩ := GameState.on_key_down_some _ _ _ hk
      have hp := GameState.change_snake_direction_fields g d
      rw [hp.2.2.2.2.1]
      exact ih
  | tick g rx ry hr hcap ih =>
      rw [GameState.step_fst]
      by_cases h : g.snake_will_eat_apple = true
      · rw [if_pos h]
        show 50 ≤ (if g.step_period > 50 then g.step_period - 25 else g.step_period)
          ∧ (if g.step_period > 50 then g.step_period - 25 else g.step_period) % 25 = 0
        split <;> omega
      · rw [if_neg h]
        exact ih

/-- Reachable states keep the score non-negative and the next reward at
least 10: both start there and only ever increase. -/
theorem Reachable.score_inv (ax ay : Int) (g : GameState) (h : Reachable ax ay g) :
    0 ≤ g.score ∧ 10 ≤ g.next_reward := by
  induction h with
  | init =>
      show (0 : Int) ≤ 0 ∧ (10 : Int) ≤ 10
      omega
  | key g g' code hr hk ih =>
      obtain ⟨d, rfl⟩ := GameState.on_key_down_some _ _ _ hk
      have hp := GameState.change_snake_direction_fields g d
      rw [hp.2.2.2.2.2.1, hp.2.2.2.2.2.2]
      exact ih
  | tick g rx ry hr hcap ih =>
      rw [GameState.step_fst]
      by_cases h : g.snake_will_eat_apple = true
      · rw [if_pos h]
        show 0 ≤ g.score + g.next_reward ∧ 10 ≤ g.next_reward + 10
        omega
      · rw [if_neg h]
        exact ih

/-! ### Claims -/

/-- The key-code constant that the dispatch of on_key_down associates to each
direction (KEY_CODE_ARROW_UP maps to Up, and so on). -/
def key_code_of : Direction → Nat
  | Direction.up => KEY_CODE_ARROW_UP
  | Direction.down => KEY_CODE_ARROW_DOWN
  | Direction.left => KEY_CODE_ARROW_LEFT
  | Direction.right => KEY_CODE_ARROW_RIGHT

/-- C1, counterexample: on the freshly initialized snake (length 4 < 1600 =
capacity, head_index 3), grow() leaves head_index at 3 instead of raising it
to 4, and head_position() right after grow() returns the old head (3,0), not
the newly inserted head (4,0). -/
theorem c1_counterexample :
    (GameState.new 0 0).snake.length < capacity
    ∧ ¬((GameState.new 0 0).snake.grow.head_index
        = (GameState.new 0 0).snake.head_index + 1)
    ∧ ¬((GameState.new 0 0).snake.grow.head_position
        = (GameState.new 0 0).snake.next_head_position) := by
  decide

/-- C1 (amended): for every snake state with free capacity and
head_index < length, grow() increments length by exactly one but leaves
head_index unchanged; head_position() immediately after grow() therefore
still returns the old head position, and the newly inserted head position is
stored at slot head_index + 1. -/
theorem c1_grow_increments_length_only (s : Snake)
    (hcap : s.length < capacity) (h : s.head_index < s.length) :
    s.grow.length = s.length + 1
    ∧ s.grow.head_index = s.head_index
    ∧ s.grow.head_position = s.head_position
    ∧ s.grow.segments (s.head_index + 1) = s.next_head_position := by
  refine ⟨Snake.grow_length s, Snake.grow_head_index s, ?_, ?_⟩
  · show s.grow.segments s.head_index = s.segments s.head_index
    rw [Snake.grow_segments_eval s h s.head_index, if_neg (by omega), if_neg (by omega)]
  · rw [Snake.grow_segments_eval s h (s.head_index + 1), if_pos rfl]

/-- C1, witness: the amended statement evaluated on the freshly initialized
snake. -/
theorem c1_grow_increments_length_only_witness :
    (GameState.new 0 0).snake.grow.head_index = (GameState.new 0 0).snake.head_index :=
  (c1_grow_increments_length_only (GameState.new 0 0).snake (by decide) (by decide)).2.1

/-- C2, counterexample: on the freshly initialized snake (head_index 3,
length 4), move_ahead() wraps head_index to 0, not to
(3 + 1) % capacity = 4. -/
theorem c2_counterexample :
    ¬((GameState.new 0 0).snake.move_ahead.head_index
      = ((GameState.new 0 0).snake.head_index + 1) % capacity) := by
  decide

/-- C2 (amended): for every snake state with head_index < length,
move_ahead() sets head_index to (head_index + 1) mod length — the wraparound
point of the head index is the current snake length, not the buffer capacity
— and overwrites that slot with the next head position. -/
theorem c2_move_ahead_wraps_at_length (s : Snake) (h : s.head_index < s.length) :
    s.move_ahead.head_index = (s.head_index + 1) % s.length
    ∧ s.move_ahead.length = s.length
    ∧ s.move_ahead.segments ((s.head_index + 1) % s.length) = s.next_head_position := by
  refine ⟨Snake.move_ahead_head_index s h, Snake.move_ahead_length s, ?_⟩
  rw [Snake.move_ahead_segments s h, Function.update_apply, if_pos rfl]

/-- C2, witness: the amended statement evaluated on the freshly initialized
snake, where move_ahead wraps 3 to (3 + 1) % 4 = 0. -/
theorem c2_move_ahead_wraps_at_length_witness :
    (GameState.new 0 0).snake.move_ahead.head_index
      = ((GameState.new 0 0).snake.head_index + 1) % (GameState.new 0 0).snake.length :=
  (c2_move_ahead_wraps_at_length (GameState.new 0 0).snake (by decide)).1

/-- C3: for every valid snake state (1 ≤ length, head_index < length,
occupied positions pairwise distinct) with length < capacity, grow()
increases length by exactly 1 and the occupied positions afterwards are a
permutation of the old ones plus the new head position, which is the old
head moved one cell in the current direction; in particular every previously
occupied position is still present with unchanged value (possibly in a
different slot). -/
theorem c3_grow_occupied_perm (s : Snake) (h1 : 1 ≤ s.length)
    (h2 : s.head_index < s.length) (h3 : s.occupied.Nodup) (hcap : s.length < capacity) :
    s.grow.length = s.length + 1
    ∧ s.grow.occupied.Perm (s.next_head_position :: s.occupied)
    ∧ s.next_head_position = position_moved s.head_position s.direction :=
  ⟨Snake.grow_length s, Snake.occupied_grow_perm s h2, rfl⟩

/-- C3, witness: the statement evaluated on the freshly initialized snake. -/
theorem c3_grow_occupied_perm_witness :
    (GameState.new 0 0).snake.grow.occupied.Perm
      ((GameState.new 0 0).snake.next_head_position
        :: (GameState.new 0 0).snake.occupied) :=
  (c3_grow_occupied_perm (GameState.new 0 0).snake (by decide) (by decide)
    (by decide) (by decide)).2.1

/-- C4: for every valid snake state (1 ≤ length, head_index < length,
occupied positions pairwise distinct) and every position p, move_ahead()
leaves length unchanged and afterwards p is occupied exactly when p was
occupied and is not the oldest tail position (the segment at slot
(head_index + 1) mod length, the one move_ahead overwrites), or p is the new
head position, which is the old head moved one cell in the current
direction. -/
theorem c4_move_ahead_occupied (s : Snake) (p : Position) (h1 : 1 ≤ s.length)
    (h2 : s.head_index < s.length) (h3 : s.occupied.Nodup) :
    s.move_ahead.length = s.length
    ∧ (p ∈ s.move_ahead.occupied ↔
        (p ∈ s.occupied ∧ p ≠ s.segments ((s.head_index + 1) % s.length))
        ∨ p = s.next_head_position)
    ∧ s.next_head_position = position_moved s.head_position s.direction := by
  refine ⟨Snake.move_ahead_length s, ?_, rfl⟩
  rw [Snake.occupied_move_ahead s h2]
  have hidx : (s.head_index + 1) % s.length < s.occupied.length := by
    rw [Snake.occupied_length]
    exact Nat.mod_lt _ (by omega)
  rw [mem_set_iff_of_nodup hidx h3 s.next_head_position p,
    Snake.occupied_getElem s _ hidx]

/-- C4, witness: the statement evaluated on the freshly initialized snake at
the evicted tail position (0,0), which is indeed no longer occupied
afterwards. -/
theorem c4_move_ahead_occupied_witness :
    { x := 0, y := 0 } ∈ (GameState.new 0 0).snake.move_ahead.occupied ↔
      ({ x := 0, y := 0 } ∈ (GameState.new 0 0).snake.occupied
        ∧ ({ x := 0, y := 0 } : Position)
          ≠ (GameState.new 0 0).snake.segments
              (((GameState.new 0 0).snake.head_index + 1) % (GameState.new 0 0).snake.length))
      ∨ ({ x := 0, y := 0 } : Position) = (GameState.new 0 0).snake.next_head_position :=
  (c4_move_ahead_occupied (GameState.new 0 0).snake { x := 0, y := 0 }
    (by decide) (by decide) (by decide)).2.1

/-- C5: for every game state and requested direction (each of the four valid
input codes maps to its direction), on_key_down applies
change_snake_direction; the heading becomes the requested direction exactly
when the request is not the exact opposite of the current heading, the whole
state is unchanged when it is, and everything except the heading is
unchanged in either case. In particular with heading Right a Left request is
ignored and an Up request sets the heading to Up. -/
theorem c5_direction_change (g : GameState) (d : Direction) :
    g.on_key_down (key_code_of d) = some (g.change_snake_direction d)
    ∧ (direction_is_opposite g.snake.direction d = true → g.change_snake_direction d = g)
    ∧ (direction_is_opposite g.snake.direction d = false →
        (g.change_snake_direction d).snake.direction = d)
    ∧ (g.change_snake_direction d).snake.segments = g.snake.segments
    ∧ (g.change_snake_direction d).snake.length = g.snake.length
    ∧ (g.change_snake_direction d).snake.head_index = g.snake.head_index
    ∧ (g.change_snake_direction d).apple = g.apple
    ∧ (g.change_snake_direction d).step_period = g.step_period
    ∧ (g.change_snake_direction d).score = g.score
    ∧ (g.change_snake_direction d).next_reward = g.next_reward
    ∧ (g.snake.direction = Direction.right →
        g.change_snake_direction Direction.left = g
        ∧ (g.change_snake_direction Direction.up).snake.direction = Direction.up) := by
  obtain ⟨f1, f2, f3, f4, f5, f6, f7⟩ := GameState.change_snake_direction_fields g d
  refine ⟨?_, ?_, ?_, f1, f2, f3, f4, f5, f6, f7, ?_⟩
  · cases d <;> rfl
  · intro h
    unfold GameState.change_snake_direction
    rw [if_pos h]
  · intro h
    unfold GameState.change_snake_direction
    rw [if_neg (by rw [h]; simp)]
  · intro h
    constructor
    · unfold GameState.change_snake_direction
      rw [if_pos (show direction_is_opposite g.snake.direction Direction.left = true
        by rw [h]; decide)]
    · unfold GameState.change_snake_direction
      rw [if_neg (show ¬(direction_is_opposite g.snake.direction Direction.up = true)
        by rw [h]; decide)]

/-- C5, witness: the fresh game state heads Right; a Left request leaves the
state unchanged. -/
theorem c5_direction_change_witness :
    (GameState.new 0 0).change_snake_direction Direction.left = GameState.new 0 0 :=
  ((c5_direction_change (GameState.new 0 0)
    Direction.left).2.2.2.2.2.2.2.2.2.2 rfl).1

/-- C6: step_period starts at 300; in every reachable state it is at least
50; a tick decreases it, by exactly 25, precisely when the tick eats and the
period is above 50, and leaves it unchanged otherwise; and the tick emits a
snake_step_period_updated event exactly when that decrease occurs. -/
theorem c6_step_period (ax ay rx ry : Int) (g : GameState) (h : Reachable ax ay g) :
    (GameState.new ax ay).step_period = 300
    ∧ 50 ≤ g.step_period
    ∧ (g.snake_will_eat_apple = true → 50 < g.step_period →
        (g.step rx ry).1.step_period = g.step_period - 25)
    ∧ (g.snake_will_eat_apple = true → g.step_period ≤ 50 →
        (g.step rx ry).1.step_period = g.step_period)
    ∧ (g.snake_will_eat_apple = false → (g.step rx ry).1.step_period = g.step_period)
    ∧ ((∃ p, Event.snake_step_period_updated p ∈ (g.step rx ry).2)
        ↔ (g.snake_will_eat_apple = true ∧ 50 < g.step_period)) := by
  refine ⟨rfl, (Reachable.period_inv ax ay g h).1, ?_, ?_, ?_, ?_⟩
  · intro he hp
    rw [GameState.step_fst, if_pos he]
    show (if g.step_period > 50 then g.step_period - 25 else g.step_period) = _
    rw [if_pos hp]
  · intro he hp
    rw [GameState.step_fst, if_pos he]
    show (if g.step_period > 50 then g.step_period - 25 else g.step_period) = _
    rw [if_neg (by omega)]
  · intro he
    rw [GameState.step_fst, if_neg (by rw [he]; simp)]
  · rw [GameState.step_snd]
    constructor
    · rintro ⟨p, hp⟩
      simp only [List.mem_append] at hp
      rcases hp with (hp | hp) | hp
      · by_cases hc : g.snake_will_eat_apple = true ∧ g.step_period > 50
        · exact hc
        · rw [if_neg hc] at hp
          simp at hp
      · by_cases hc : g.snake_will_eat_apple = true
        · rw [if_pos hc] at hp
          simp at hp
        · rw [if_neg hc] at hp
          simp at hp
      · exact absurd hp (GameState.period_event_not_game_over _ p)
    · rintro ⟨he, hp⟩
      refine ⟨g.step_period - 25, ?_⟩
      simp only [List.mem_append]
      left
      left
      rw [if_pos ⟨he, hp⟩]
      simp

/-- C6, witness: the statement evaluated at the initial state, where the
period is 300 ≥ 50. -/
theorem c6_step_period_witness :
    50 ≤ (GameState.new 4 0).step_period :=
  (c6_step_period 4 0 4 0 (GameState.new 4 0) Reachable.init).2.1

/-- C7: the session starts with score 0 and next_reward 10; an eating tick
adds the pre-tick next_reward to the score and then raises next_reward by
10, a non-eating tick changes neither; the score is non-negative and
non-decreasing across every reachable tick; concretely, with the apple kept
at (4,0) the first two ticks both eat and yield score 10 and next_reward 20,
then score 30 and next_reward 30. -/
theorem c7_score_reward (ax ay rx ry : Int) (g : GameState) (h : Reachable ax ay g) :
    (GameState.new ax ay).score = 0
    ∧ (GameState.new ax ay).next_reward = 10
    ∧ (g.snake_will_eat_apple = true →
        (g.step rx ry).1.score = g.score + g.next_reward
        ∧ (g.step rx ry).1.next_reward = g.next_reward + 10)
    ∧ (g.snake_will_eat_apple = false →
        (g.step rx ry).1.score = g.score
        ∧ (g.step rx ry).1.next_reward = g.next_reward)
    ∧ 0 ≤ g.score
    ∧ g.score ≤ (g.step rx ry).1.score
    ∧ (GameState.new 4 0).snake_will_eat_apple = true
    ∧ ((GameState.new 4 0).step 4 0).1.score = 10
    ∧ ((GameState.new 4 0).step 4 0).1.next_reward = 20
    ∧ ((GameState.new 4 0).step 4 0).1.snake_will_eat_apple = true
    ∧ (((GameState.new 4 0).step 4 0).1.step 4 0).1.score = 30
    ∧ (((GameState.new 4 0).step 4 0).1.step 4 0).1.next_reward = 30 := by
  refine ⟨rfl, rfl, ?_, ?_, (Reachable.score_inv ax ay g h).1, ?_,
    by decide, by decide, by decide, by decide, by decide, by decide⟩
  · intro he
    rw [GameState.step_fst, if_pos he]
    exact ⟨rfl, rfl⟩
  · intro he
    rw [GameState.step_fst, if_neg (by rw [he]; simp)]
    exact ⟨rfl, rfl⟩
  · rw [GameState.step_fst]
    by_cases he : g.snake_will_eat_apple = true
    · rw [if_pos he]
      show g.score ≤ g.score + g.next_reward
      have hr := (Reachable.score_inv ax ay g h).2
      omega
    · rw [if_neg he]

/-- C7, witness: the statement evaluated at the initial state, whose score
is 0. -/
theorem c7_score_reward_witness :
    0 ≤ (GameState.new 4 0).score :=
  (c7_score_reward 4 0 4 0 (GameState.new 4 0) Reachable.init).2.2.2.2.1

/-- C10: in every reachable state (with every eating tick happening while
length < capacity, as the tick rule records), head_index < length holds —
initially 3 < 4 — so head_position always reads an occupied slot, and the
head_index == length branch of grow() is never taken. -/
theorem c10_head_index_invariant (ax ay : Int) (g : GameState) (h : Reachable ax ay g) :
    (GameState.new ax ay).snake.head_index = 3
    ∧ (GameState.new ax ay).snake.length = 4
    ∧ g.snake.head_index < g.snake.length
    ∧ g.snake.head_index ≠ g.snake.length
    ∧ g.snake.head_position ∈ g.snake.occupied := by
  have hinv := Reachable.snake_inv ax ay g h
  refine ⟨rfl, rfl, hinv, by omega, ?_⟩
  unfold Snake.head_position Snake.occupied
  exact List.mem_map_of_mem _ (List.mem_range.mpr hinv)

/-- C10, witness: the invariant evaluated at the initial state. -/
theorem c10_head_index_invariant_witness :
    (GameState.new 0 0).snake.head_index < (GameState.new 0 0).snake.length :=
  (c10_head_index_invariant 0 0 (GameState.new 0 0) Reachable.init).2.2.1

/-- C8: for every snake state with head_index < length, eats_himself is true
exactly when some occupied slot other than the head slot holds the head's
position; in particular the freshly initialized snake occupies the four
pairwise distinct cells (0,0), (1,0), (2,0), (3,0) and eats_himself is false
on it. -/
theorem c8_eats_himself_iff (s : Snake) (ax ay : Int) (h : s.head_index < s.length) :
    (s.eats_himself = true ↔
      ∃ i, i < s.length ∧ i ≠ s.head_index ∧ s.segments i = s.head_position)
    ∧ (GameState.new ax ay).snake.eats_himself = false
    ∧ (GameState.new ax ay).snake.occupied
        = [{ x := 0, y := 0 }, { x := 1, y := 0 }, { x := 2, y := 0 }, { x := 3, y := 0 }]
    ∧ (GameState.new ax ay).snake.occupied.Nodup := by
  have hocc : (GameState.new ax ay).snake.occupied
      = [{ x := 0, y := 0 }, { x := 1, y := 0 }, { x := 2, y := 0 }, { x := 3, y := 0 }] := rfl
  refine ⟨?_, rfl, hocc, by rw [hocc]; decide⟩
  simp only [Snake.eats_himself, List.any_eq_true, List.mem_range, Bool.and_eq_true,
    Bool.not_eq_true', beq_eq_false_iff_ne, beq_iff_eq, ne_eq]
  constructor
  · rintro ⟨i, hi, hne, heq⟩
    exact ⟨i, hi, hne, heq.symm⟩
  · rintro ⟨i, hi, hne, heq⟩
    exact ⟨i, hi, hne, heq.symm⟩

/-- C8, witness: the freshly initialized snake does not eat itself. -/
theorem c8_eats_himself_iff_witness :
    (GameState.new 0 0).snake.eats_himself = false :=
  (c8_eats_himself_iff (GameState.new 0 0).snake 0 0 (by decide)).2.1

/-- C9: on_key_down maps code 0 to an Up request, 1 to Down, 2 to Left and 3
to Right and never fails on them; every code outside the four recognized
values reaches the todo!() arm, a fatal abort, modelled as none. -/
theorem c9_on_key_down_codes (g : GameState) (code : Nat) :
    (code = KEY_CODE_ARROW_UP →
      g.on_key_down code = some (g.change_snake_direction Direction.up))
    ∧ (code = KEY_CODE_ARROW_DOWN →
      g.on_key_down code = some (g.change_snake_direction Direction.down))
    ∧ (code = KEY_CODE_ARROW_LEFT →
      g.on_key_down code = some (g.change_snake_direction Direction.left))
    ∧ (code = KEY_CODE_ARROW_RIGHT →
      g.on_key_down code = some (g.change_snake_direction Direction.right))
    ∧ (code < 4 → (g.on_key_down code).isSome = true)
    ∧ (4 ≤ code → g.on_key_down code = none) := by
  refine ⟨?_, ?_, ?_, ?_, ?_, ?_⟩
  · rintro rfl
    rfl
  · rintro rfl
    rfl
  · rintro rfl
    rfl
  · rintro rfl
    rfl
  · intro hlt
    interval_cases code <;> rfl
  · intro hge
    unfold GameState.on_key_down KEY_CODE_ARROW_UP KEY_CODE_ARROW_DOWN
      KEY_CODE_ARROW_LEFT KEY_CODE_ARROW_RIGHT
    rw [if_neg (show ¬(code = 0) by omega), if_neg (show ¬(code = 1) by omega),
      if_neg (show ¬(code = 2) by omega), if_neg (show ¬(code = 3) by omega)]

/-- C9, witness: code 4 aborts on the fresh game state. -/
theorem c9_on_key_down_codes_witness :
    (GameState.new 0 0).on_key_down 4 = none :=
  (c9_on_key_down_codes (GameState.new 0 0) 4).2.2.2.2.2 (by omega)

end RSnake
